import Mathlib

/-!
# Verification of `lights.py` (wonderwall)

A shallow embedding of the two core components of `src/lights.py`:

* `KnobReader` — a non-blocking polling state machine reading two integers
  from a serial-like transport (`read`, `buffered_read`, `voltage_to_value`);
* the LED frame encoder (`send_quadrant`, `send_rgb`, `dnrgb_header`) — the
  quadrant split, serpentine reordering, padding, start-index bookkeeping and
  datagram serialization.

Machine integers are modelled as `Int`/`Nat`; Python floats are modelled as
exact rationals (`ℚ`); Python exceptions are modelled with `Except String`.
External I/O effects (the serial write of the request byte, the UDP
`sock.sendto`, the `print` diagnostics) are not modelled: only the values a
call returns and the state it leaves behind are.
-/

namespace Lights

/-! ## Python primitives -/

/-- A Python `bytes` value, one `Nat` per byte (ASCII). -/
abbrev Bytes := List Nat

/-- The whitespace bytes stripped by `bytes.strip()`:
space, tab, newline, carriage return, vertical tab, form feed. -/
def isPySpace (b : Nat) : Bool := b = 32 ∨ b = 9 ∨ b = 10 ∨ b = 13 ∨ b = 11 ∨ b = 12

/-- ASCII digits `b"0"`..`b"9"`. -/
def isDigitByte (b : Nat) : Bool := 48 ≤ b ∧ b ≤ 57

/-- `bytes.strip()`. -/
def stripBytes (l : Bytes) : Bytes :=
  ((l.dropWhile isPySpace).reverse.dropWhile isPySpace).reverse

def digitsToNat (l : Bytes) : Option Nat :=
  if l ≠ [] ∧ l.all isDigitByte then
    some (l.foldl (fun a b => a * 10 + (b - 48)) 0)
  else none

/-- `int(bytes)`: Python strips surrounding whitespace, accepts an optional
sign (`-` is byte 45, `+` is byte 43) followed by a nonempty digit string, and
raises `ValueError` otherwise (`none` here).  Underscore digit separators are
not modelled. -/
def pyInt (s : Bytes) : Option Int :=
  match stripBytes s with
  | 45 :: rest => (digitsToNat rest).map (fun n => -(n : Int))
  | 43 :: rest => (digitsToNat rest).map (fun n => (n : Int))
  | l => (digitsToNat l).map (fun n => (n : Int))

/-- `line.split(b"\t")`: split on every tab byte (9); always nonempty. -/
def splitTab : Bytes → List Bytes
  | [] => [[]]
  | b :: rest =>
    if b = 9 then [] :: splitTab rest
    else
      match splitTab rest with
      | [] => [[b]]
      | f :: gs => (b :: f) :: gs

/-- Python floor division `//` on integers rounds toward negative infinity. -/
def pyFloorDiv (a : Int) (b : Int) : Int := Int.fdiv a b

/-! ## KnobReader

`KnobReader.__init__` stores the serial handle, `last_values`, the `waiting`
flag and the 10-entry `buffer`.  The serial transport is modelled by the two
observations `read` makes of it: `in_waiting` and the line `readline` would
deliver. -/

structure KnobState where
  last_values : Int × Int
  waiting : Bool
  buffer : List (Int × Int)
  deriving Repr, DecidableEq

/-- `KnobReader(initial_value, ser)`. -/
def KnobState.init (initial_value : Int) : KnobState :=
  { last_values := (initial_value, initial_value)
  , waiting := false
  , buffer := List.replicate 10 (initial_value, initial_value) }

structure Transport where
  in_waiting : Nat
  line : Bytes
  deriving Repr, DecidableEq

/-- The body of the `try`/`except ValueError` block of `KnobReader.read`:
`values = line.split(b"\t"); retval = int(values[0]), int(values[1])`.
`int(values[0])` is evaluated first; a `ValueError` from either `int` call is
caught and yields the sentinel `(0, 0)`.  When the line has a single
tab-separated field, `values[1]` raises `IndexError`, which the
`except ValueError` clause does NOT catch, so it propagates. -/
def parsedRetval (line : Bytes) : Except String (Int × Int) :=
  let values := splitTab line
  match pyInt ((values.get? 0).getD []) with
  | none => .ok (0, 0)
  | some a =>
    match values.get? 1 with
    | none => .error "IndexError: list index out of range"
    | some v1 =>
      match pyInt v1 with
      | none => .ok (0, 0)
      | some b => .ok (a, b)

/-- `KnobReader.read`.  Returns the reading and the successor state.
The `ser.write(b"\n")` request in the idle branch is an external effect and
leaves the reader state itself untouched apart from `waiting`. -/
def read (s : KnobState) (t : Transport) : Except String ((Int × Int) × KnobState) :=
  if s.waiting = false then
    .ok (s.last_values, { s with waiting := true })
  else if t.in_waiting < 12 then
    .ok (s.last_values, s)
  else
    match parsedRetval t.line with
    | .error e => .error e
    | .ok retval =>
      .ok (retval, { s with waiting := false, last_values := retval })

/-- `n` consecutive `read()` calls against the same (unchanging) transport,
collecting the returned readings. -/
def readIter : Nat → KnobState → Transport → Except String (List (Int × Int) × KnobState)
  | 0, s, _ => .ok ([], s)
  | n + 1, s, t =>
    match read s t with
    | .error e => .error e
    | .ok (v, s1) =>
      match readIter n s1 t with
      | .error e => .error e
      | .ok (vs, s2) => .ok (v :: vs, s2)

/-- `KnobReader.buffered_read`: one `read()`, then `buffer.pop()` (drop the
last, i.e. oldest, entry), `buffer.insert(0, result)` (prepend the new
reading), and per-component `sum // len(buffer)`. -/
def buffered_read (s : KnobState) (t : Transport) :
    Except String ((Int × Int) × KnobState) :=
  match read s t with
  | .error e => .error e
  | .ok (result, s1) =>
    let buffer := result :: s1.buffer.dropLast
    let sums := buffer.foldr (fun p a => (p.1 + a.1, p.2 + a.2)) ((0 : Int), (0 : Int))
    let n : Int := buffer.length
    .ok ((pyFloorDiv sums.1 n, pyFloorDiv sums.2 n), { s1 with buffer := buffer })

/-- `KnobReader.voltage_to_value`, with Python floats modelled as exact
rationals: scale the raw value by `3.3 / 65535`, clamp to `[0.05, 2.8]`
volts, then rescale to `[0, 1]` by `(v - 0.05) / 2.75`. -/
def voltage_to_value (v : ℚ) : ℚ :=
  let v1 : ℚ := v * (33 / 10) / 65535
  let v2 : ℚ := if v1 > 28 / 10 then 28 / 10 else v1
  let v3 : ℚ := if v2 < 1 / 20 then 1 / 20 else v2
  (v3 - 1 / 20) / (11 / 4)

/-! ## Wire protocol -/

/-- `DNRGB_PROTOCOL_VALUE = 4` (module-level constant). -/
def DNRGB_PROTOCOL_VALUE : Nat := 4

/-- `dnrgb_header(wait_time, start_index)`: reject `wait_time > 255` and
`start_index > 2**16 - 1` with `ValueError`s, then
`struct.pack(">BBH", DNRGB_PROTOCOL_VALUE, wait_time, start_index)`, which
itself raises `struct.error` when a field is negative. -/
def dnrgb_header (wait_time : Int) (start_index : Int) : Except String (List Nat) :=
  if wait_time > 255 then
    .error "ValueError: Wait time must be within 0-255"
  else if start_index > 2 ^ 16 - 1 then
    .error "ValueError: Start index must be a nonnegative 16-bit number"
  else if wait_time < 0 ∨ start_index < 0 then
    .error "struct.error: argument out of range"
  else
    .ok [DNRGB_PROTOCOL_VALUE, wait_time.toNat,
         start_index.toNat / 256, start_index.toNat % 256]

/-- `send_rgb(rgb_values, start_index)`: header with wait time 5, followed by
the raw byte payload.  The `sock.sendto` is an external effect; the datagram
bytes are returned. -/
def send_rgb (rgb_values : List Nat) (start_index : Int) : Except String (List Nat) :=
  match dnrgb_header 5 start_index with
  | .error e => .error e
  | .ok header => .ok (header ++ rgb_values)

/-! ## LED frame encoder (`send_quadrant`)

A pixel grid is a list of rows of RGB triples (the numpy `(h, w, 3)` array of
`uint8`).  `np.split(a, 2)` raises `ValueError` unless the split axis has even
length; on axis 1 the checked length is the array width `shape[1]`, here the
length of the first row (numpy arrays are rectangular). -/

abbrev Pixel := Nat × Nat × Nat

abbrev Grid := List (List Pixel)

def blackPixel : Pixel := (0, 0, 0)

def pixelBytes (p : Pixel) : List Nat := [p.1, p.2.1, p.2.2]

def gridWidth (g : Grid) : Nat := ((g.head?).map List.length).getD 0

/-- `np.split(frame, 2)` (axis 0). -/
def splitRows (g : Grid) : Except String (Grid × Grid) :=
  if g.length % 2 = 0 then
    .ok (g.take (g.length / 2), g.drop (g.length / 2))
  else
    .error "ValueError: array split does not result in an equal division"

/-- `np.split(half, 2, axis=1)`. -/
def splitCols (g : Grid) : Except String (Grid × Grid) :=
  if gridWidth g % 2 = 0 then
    .ok (g.map (List.take (gridWidth g / 2)), g.map (List.drop (gridWidth g / 2)))
  else
    .error "ValueError: array split does not result in an equal division"

/-- `q[1::2, :] = q[1::2, ::-1]`: every odd-indexed row of the quadrant has
its column order reversed. -/
def serp (q : Grid) : Grid :=
  q.enum.map (fun ir => if ir.1 % 2 = 1 then ir.2.reverse else ir.2)

/-- `np.pad(q, ((n_leading, 0), (0, 0)), constant_values=0)` on the flattened
`(n, 3)` quadrant: prepend `n_leading` black pixels. -/
def padLeading (n_leading : Nat) (q : List Pixel) : List Pixel :=
  List.replicate n_leading blackPixel ++ q

def QUADRANT_LEADING_LEDS : List Nat := [1, 1, 1, 1]

/-- Running (inclusive) prefix sums, `np.cumsum`. -/
def cumsum (acc : Nat) : List Nat → List Nat
  | [] => []
  | x :: xs => (acc + x) :: cumsum (acc + x) xs

/-- `[0] + np.cumsum(lengths of all quadrants but the last)`. -/
def positionsOf (lens : List Nat) : List Nat :=
  0 :: cumsum 0 (lens.take (lens.length - 1))

/-- The `for q, pos in zip(quadrants, positions): send_rgb(q, pos)` loop,
collecting the emitted datagrams.  A header error propagates (datagrams sent
before the failing iteration are external effects and not recorded). -/
def sendAll : List (List Pixel × Nat) → Except String (List (List Nat))
  | [] => .ok []
  | (q, pos) :: rest =>
    match send_rgb ((q.map pixelBytes).flatten) (pos : Int) with
    | .error e => .error e
    | .ok d =>
      match sendAll rest with
      | .error e => .error e
      | .ok ds => .ok (d :: ds)

/-- `send_quadrant(frame)`.  The serpentine assignment mutates the quadrant
views in place and therefore writes through to `frame` itself; the returned
pair is (emitted datagrams, the frame as left behind by the call). -/
def send_quadrant (frame : Grid) : Except String (List (List Nat) × Grid) :=
  match splitRows frame with
  | .error e => .error e
  | .ok (top, bottom) =>
    match splitCols top with
    | .error e => .error e
    | .ok (q1, q2) =>
      match splitCols bottom with
      | .error e => .error e
      | .ok (q3, q4) =>
        let s1 := serp q1
        let s2 := serp q2
        let s3 := serp q3
        let s4 := serp q4
        let frameAfter :=
          List.zipWith (fun a b => a ++ b) s1 s2 ++
          List.zipWith (fun a b => a ++ b) s3 s4
        let flat := [s1, s2, s3, s4].map List.flatten
        let padded := (QUADRANT_LEADING_LEDS.zip flat).map
          (fun nq => padLeading nq.1 nq.2)
        let positions := positionsOf (padded.map List.length)
        match sendAll (padded.zip positions) with
        | .error e => .error e
        | .ok datagrams => .ok (datagrams, frameAfter)

/-- The start index encoded in a datagram's header (bytes 2 and 3,
big-endian). -/
def dgStart (d : List Nat) : Nat := 256 * (d.get? 2).getD 0 + (d.get? 3).getD 0

/-! ## Helper lemmas -/

theorem read_ok_buffer (s : KnobState) (t : Transport) (v : Int × Int)
    (s1 : KnobState) (h : read s t = .ok (v, s1)) : s1.buffer = s.buffer := by
  unfold read at h
  split at h
  · simp only [Except.ok.injEq, Prod.mk.injEq] at h
    rw [← h.2]
  · split at h
    · simp only [Except.ok.injEq, Prod.mk.injEq] at h
      rw [← h.2]
    · split at h
      · exact absurd h (by simp)
      · simp only [Except.ok.injEq, Prod.mk.injEq] at h
        rw [← h.2]

theorem foldr_pair_sum (l : List (Int × Int)) :
    l.foldr (fun p a => (p.1 + a.1, p.2 + a.2)) ((0 : Int), (0 : Int)) =
      ((l.map Prod.fst).sum, (l.map Prod.snd).sum) := by
  induction l with
  | nil => rfl
  | cons x xs ih =>
    simp only [List.foldr_cons, ih, List.map_cons, List.sum_cons]

theorem serp_map_length (q : Grid) : (serp q).map List.length = q.map List.length := by
  unfold serp
  rw [List.map_map]
  have h : (List.length ∘ fun ir : Nat × List Pixel =>
      if ir.1 % 2 = 1 then ir.2.reverse else ir.2) = List.length ∘ Prod.snd := by
    funext ir
    by_cases hp : ir.1 % 2 = 1 <;> simp [hp]
  rw [h, ← List.map_map, List.enum_map_snd]

theorem sum_map_length_const (g : Grid) (w : Nat) (h : ∀ r ∈ g, r.length = w) :
    (g.map List.length).sum = g.length * w := by
  induction g with
  | nil => simp
  | cons r rest ih =>
    simp only [List.map_cons, List.sum_cons, List.length_cons]
    rw [h r (List.mem_cons_self r rest), ih (fun x hx => h x (List.mem_cons_of_mem r hx))]
    ring

theorem padded_serp_length (q : Grid) (a w : Nat)
    (hlen : q.length = a) (hw : ∀ r ∈ q, r.length = w) :
    (padLeading 1 (serp q).flatten).length = a * w + 1 := by
  have h1 : (serp q).flatten.length = a * w := by
    rw [List.length_flatten, serp_map_length, sum_map_length_const q w hw, hlen]
  simp only [padLeading, List.length_append, List.length_replicate, h1]
  omega

theorem dnrgb_header_ok_small (pos : Nat) (h : pos ≤ 65535) :
    dnrgb_header 5 (pos : Int) = .ok [4, 5, pos / 256, pos % 256] := by
  have h2 : ¬ ((pos : Int) > 2 ^ 16 - 1) := by
    have h65 : ((2 : ℤ) ^ 16 - 1) = 65535 := by norm_num
    rw [h65]
    push_neg
    exact_mod_cast h
  unfold dnrgb_header
  rw [if_neg (by norm_num), if_neg h2,
      if_neg (by push_neg; exact ⟨by norm_num, by exact_mod_cast Nat.zero_le pos⟩)]
  simp [DNRGB_PROTOCOL_VALUE]

theorem sendAll_ok (l : List (List Pixel × Nat)) (h : ∀ qp ∈ l, qp.2 ≤ 65535) :
    ∃ ds, sendAll l = .ok ds ∧ ds.map dgStart = l.map Prod.snd := by
  induction l with
  | nil => exact ⟨[], rfl, rfl⟩
  | cons qp rest ih =>
    obtain ⟨q, pos⟩ := qp
    obtain ⟨ds, hds, hmap⟩ := ih (fun x hx => h x (List.mem_cons_of_mem _ hx))
    have hpos : pos ≤ 65535 := h (q, pos) (List.mem_cons_self _ _)
    have hsend : send_rgb ((q.map pixelBytes).flatten) (pos : Int) =
        .ok ([4, 5, pos / 256, pos % 256] ++ (q.map pixelBytes).flatten) := by
      unfold send_rgb
      rw [dnrgb_header_ok_small pos hpos]
    refine ⟨([4, 5, pos / 256, pos % 256] ++ (q.map pixelBytes).flatten) :: ds, ?_, ?_⟩
    · unfold sendAll
      rw [hsend, hds]
    · simp only [List.map_cons, hmap, List.cons.injEq]
      refine ⟨?_, trivial⟩
      simp only [dgStart, List.cons_append, List.get?_cons_succ, List.get?_cons_zero,
        Option.getD_some]
      omega

theorem positionsOf_four (a b c d : Nat) :
    positionsOf [a, b, c, d] = [0, 0 + a, 0 + a + b, 0 + a + b + c] := rfl

theorem send_quadrant_ok_eq (frame top bottom q1 q2 q3 q4 : Grid)
    (h1 : splitRows frame = .ok (top, bottom))
    (h2 : splitCols top = .ok (q1, q2))
    (h3 : splitCols bottom = .ok (q3, q4)) :
    send_quadrant frame =
      match sendAll
          [(padLeading 1 (serp q1).flatten, 0),
           (padLeading 1 (serp q2).flatten, 0 + (padLeading 1 (serp q1).flatten).length),
           (padLeading 1 (serp q3).flatten,
             0 + (padLeading 1 (serp q1).flatten).length +
               (padLeading 1 (serp q2).flatten).length),
           (padLeading 1 (serp q4).flatten,
             0 + (padLeading 1 (serp q1).flatten).length +
               (padLeading 1 (serp q2).flatten).length +
               (padLeading 1 (serp q3).flatten).length)] with
      | .error e => .error e
      | .ok ds =>
        .ok (ds, List.zipWith (fun a b => a ++ b) (serp q1) (serp q2) ++
                 List.zipWith (fun a b => a ++ b) (serp q3) (serp q4)) := by
  unfold send_quadrant
  rw [h1]
  dsimp only
  rw [h2]
  dsimp only
  rw [h3]
  dsimp only
  simp only [QUADRANT_LEADING_LEDS, List.map_cons, List.map_nil, List.zip_cons_cons,
    List.zip_nil_right, positionsOf_four]

theorem rows_take_length (g : Grid) (w k : Nat) (hw2 : ∀ r ∈ g, r.length = w)
    (hk : k ≤ w) : ∀ r ∈ g.map (List.take k), r.length = k := by
  intro r hr
  rw [List.mem_map] at hr
  obtain ⟨r1, hr1, rfl⟩ := hr
  rw [List.length_take, hw2 r1 hr1]
  exact inf_eq_left.mpr hk

theorem rows_drop_length (g : Grid) (w k : Nat) (hw2 : ∀ r ∈ g, r.length = w) :
    ∀ r ∈ g.map (List.drop k), r.length = w - k := by
  intro r hr
  rw [List.mem_map] at hr
  obtain ⟨r1, hr1, rfl⟩ := hr
  rw [List.length_drop, hw2 r1 hr1]

/-! ## Claims -/

/-- C3: while a request is outstanding (`waiting = true`, the spec's
`AWAITING_RESPONSE`) and the transport has fewer than 12 bytes buffered,
`read()` returns the held reading and leaves the state unchanged; hence any
number `n` of consecutive `read()` calls against a transport that never
delivers data all return the held value and the state stays
`AWAITING_RESPONSE`. -/
theorem c3_read_holds_value (s : KnobState) (t : Transport) (n : Nat)
    (hw : s.waiting = true) (hb : t.in_waiting < 12) :
    read s t = .ok (s.last_values, s) ∧
    readIter n s t = .ok (List.replicate n s.last_values, s) := by
  have hr : read s t = .ok (s.last_values, s) := by
    unfold read
    rw [hw]
    simp [hb]
  refine ⟨hr, ?_⟩
  induction n with
  | zero => rfl
  | succ k ih =>
    rw [List.replicate_succ]
    unfold readIter
    rw [hr]
    dsimp only
    rw [ih]

/-- Witness for C3 at a concrete starved reader: three consecutive calls all
return the held `(7, 7)` and the state is unchanged. -/
theorem c3_read_holds_value_witness :
    read { last_values := (7, 7), waiting := true, buffer := [] }
        { in_waiting := 0, line := [] } =
      .ok ((7, 7), { last_values := (7, 7), waiting := true, buffer := [] }) ∧
    readIter 3 { last_values := (7, 7), waiting := true, buffer := [] }
        { in_waiting := 0, line := [] } =
      .ok ([(7, 7), (7, 7), (7, 7)],
           { last_values := (7, 7), waiting := true, buffer := [] }) :=
  c3_read_holds_value
    { last_values := (7, 7), waiting := true, buffer := [] }
    { in_waiting := 0, line := [] } 3 (by decide) (by decide)

/-- C4: the spec says `read()` never raises and that every malformed line
degrades to the sentinel `(0, 0)`; but on the line `b"123\n"` — malformed,
since it lacks a second tab-separated field — `int(values[0])` succeeds and
`values[1]` then raises `IndexError`, which the `except ValueError` clause
does not catch, so `read()` raises. -/
theorem c4_read_raises_on_tabless_line :
    read { last_values := (7, 7), waiting := true, buffer := [] }
        { in_waiting := 12, line := [49, 50, 51, 10] } =
      .error "IndexError: list index out of range" := by rfl

/-- C5: `voltage_to_value` (the normalization function, floats modelled as
exact rationals) maps every raw integer — 16-bit or not — into `[0, 1]`, and
maps the maximal 16-bit raw value 65535 exactly to 1. -/
theorem c5_normalize_in_unit_interval :
    (∀ raw : ℤ, 0 ≤ voltage_to_value (raw : ℚ) ∧ voltage_to_value (raw : ℚ) ≤ 1) ∧
    voltage_to_value 65535 = 1 := by
  constructor
  · intro raw
    unfold voltage_to_value
    dsimp only
    split_ifs with h1 h2 h3
    · exact absurd h2 (by norm_num)
    · constructor <;> norm_num
    · constructor <;> norm_num
    · constructor
      · apply div_nonneg
        · linarith
        · norm_num
      · rw [div_le_one (by norm_num)]
        linarith
  · unfold voltage_to_value
    norm_num

/-- C6 counterexample: the line `b"-1\t34\n"` parses to `(-1, 34)`, which
`read()` stores and returns as-is — `-1` is not mapped to the sentinel
`(0, 0)`. -/
theorem c6_counterexample_neg_one_kept :
    read { last_values := (7, 7), waiting := true, buffer := [] }
        { in_waiting := 12, line := [45, 49, 9, 51, 52, 10] } =
      .ok ((-1, 34),
           { last_values := (-1, 34), waiting := false, buffer := [] }) ∧
    ((-1 : Int), (34 : Int)) ≠ ((0 : Int), (0 : Int)) := by
  exact ⟨by rfl, by decide⟩

/-- C6 amended: when `read()` consumes a line, only a parse failure
(`ValueError`) is replaced by the sentinel `(0, 0)`; successfully parsed
values — including `-1` — are stored and returned as-is, as the parse of
`b"-1\t34\n"` shows. -/
theorem c6_read_stores_parsed_values (s : KnobState) (t : Transport)
    (v : Int × Int) (hw : s.waiting = true) (hb : ¬ t.in_waiting < 12)
    (hp : parsedRetval t.line = .ok v) :
    read s t = .ok (v, { s with waiting := false, last_values := v }) ∧
    parsedRetval [45, 49, 9, 51, 52, 10] = .ok (-1, 34) := by
  refine ⟨?_, by rfl⟩
  unfold read
  rw [hw]
  simp only [Bool.true_eq_false, if_false, hb, if_false, hp]

/-- Witness for C6 amended at the concrete `b"-1\t34\n"` transport. -/
theorem c6_read_stores_parsed_values_witness :
    read { last_values := (7, 7), waiting := true, buffer := [] }
        { in_waiting := 12, line := [45, 49, 9, 51, 52, 10] } =
      .ok ((-1, 34),
           { last_values := (-1, 34), waiting := false, buffer := [] }) ∧
    parsedRetval [45, 49, 9, 51, 52, 10] = .ok (-1, 34) :=
  c6_read_stores_parsed_values
    { last_values := (7, 7), waiting := true, buffer := [] }
    { in_waiting := 12, line := [45, 49, 9, 51, 52, 10] }
    (-1, 34) (by decide) (by decide) (by rfl)

/-- C7 counterexample: with the ten-entry buffer all `(0, 0)` and an incoming
reading `(-5, -5)` (line `b"-5\t-5\n"`), `buffered_read` returns `(-1, -1)` —
Python `//` floors — while the integer-truncated mean of `-5 / 10` is `0`. -/
theorem c7_counterexample_floor_not_trunc :
    buffered_read
        { last_values := (0, 0), waiting := true,
          buffer := List.replicate 10 ((0 : Int), (0 : Int)) }
        { in_waiting := 12, line := [45, 53, 9, 45, 53, 10] } =
      .ok ((-1, -1),
           { last_values := (-5, -5), waiting := false,
             buffer := (-5, -5) :: List.replicate 9 ((0 : Int), (0 : Int)) }) ∧
    Int.tdiv (-5) 10 = 0 ∧ ((-1 : Int) ≠ 0) := by
  exact ⟨by rfl, by decide, by decide⟩

/-- C7 amended: every `buffered_read()` call pushes exactly one new reading
into the 10-entry buffer, evicting the oldest so the buffer again holds
exactly 10 entries, and returns the per-component floor-division (floored
toward negative infinity, not truncated toward zero) mean over the buffer. -/
theorem c7_buffered_read_mean (s : KnobState) (t : Transport)
    (v : Int × Int) (s1 : KnobState)
    (hr : read s t = .ok (v, s1)) (hb : s.buffer.length = 10) :
    buffered_read s t =
      .ok ((pyFloorDiv (((v :: s.buffer.dropLast).map Prod.fst).sum) 10,
            pyFloorDiv (((v :: s.buffer.dropLast).map Prod.snd).sum) 10),
           { s1 with buffer := v :: s.buffer.dropLast }) ∧
    (v :: s.buffer.dropLast).length = 10 := by
  have hbuf : s1.buffer = s.buffer := read_ok_buffer s t v s1 hr
  have hlen : (v :: s.buffer.dropLast).length = 10 := by
    simp [List.length_dropLast, hb]
  refine ⟨?_, hlen⟩
  unfold buffered_read
  rw [hr]
  dsimp only
  rw [hbuf, foldr_pair_sum, hlen]
  norm_num

/-- Witness for C7 amended: ten held `(10, 10)` readings followed by a parsed
`(0, 0)` give the mean `(9, 9)`. -/
theorem c7_buffered_read_mean_witness :
    buffered_read
        { last_values := (0, 0), waiting := true,
          buffer := List.replicate 10 ((10 : Int), (10 : Int)) }
        { in_waiting := 12, line := [48, 9, 48, 10] } =
      .ok ((9, 9),
           { last_values := (0, 0), waiting := false,
             buffer := (0, 0) :: List.replicate 9 ((10 : Int), (10 : Int)) }) := by
  have h := c7_buffered_read_mean
    { last_values := (0, 0), waiting := true,
      buffer := List.replicate 10 ((10 : Int), (10 : Int)) }
    { in_waiting := 12, line := [48, 9, 48, 10] }
    (0, 0)
    { last_values := (0, 0), waiting := false,
      buffer := List.replicate 10 ((10 : Int), (10 : Int)) }
    (by rfl) (by rfl)
  simpa using h.1

/-- C8: `dnrgb_header` raises a `ValueError` whenever `wait_time > 255` or
`start_index > 65535` — never silently truncating — and for `wait_time` in
`[0, 255]` and `start_index` in `[0, 65535]` returns the 4-byte big-endian
header: protocol id, wait time, and the two start-index bytes. -/
theorem c8_dnrgb_header_contract (wait_time start_index : Int) :
    (wait_time > 255 →
      dnrgb_header wait_time start_index =
        .error "ValueError: Wait time must be within 0-255") ∧
    (wait_time ≤ 255 → start_index > 65535 →
      dnrgb_header wait_time start_index =
        .error "ValueError: Start index must be a nonnegative 16-bit number") ∧
    (0 ≤ wait_time → wait_time ≤ 255 → 0 ≤ start_index → start_index ≤ 65535 →
      dnrgb_header wait_time start_index =
        .ok [DNRGB_PROTOCOL_VALUE, wait_time.toNat,
             start_index.toNat / 256, start_index.toNat % 256]) := by
  refine ⟨?_, ?_, ?_⟩
  · intro h
    unfold dnrgb_header
    rw [if_pos h]
  · intro h1 h2
    unfold dnrgb_header
    rw [if_neg (by omega), if_pos (by norm_num; omega)]
  · intro h1 h2 h3 h4
    unfold dnrgb_header
    rw [if_neg (by omega), if_neg (by norm_num; omega), if_neg (by omega)]

/-- Witness for C8: an over-range wait time and an over-range start index are
rejected with the respective errors, and in-range fields are packed. -/
theorem c8_dnrgb_header_contract_witness :
    dnrgb_header 300 0 = .error "ValueError: Wait time must be within 0-255" ∧
    dnrgb_header 5 70000 =
      .error "ValueError: Start index must be a nonnegative 16-bit number" ∧
    dnrgb_header 5 15 = .ok [4, 5, 0, 15] :=
  ⟨(c8_dnrgb_header_contract 300 0).1 (by decide),
   (c8_dnrgb_header_contract 5 70000).2.1 (by decide) (by decide),
   (c8_dnrgb_header_contract 5 15).2.2 (by decide) (by decide) (by decide) (by decide)⟩

set_option maxHeartbeats 2000000 in
/-- C1: for every 4×4 grid — whose quadrants are the 2×2 blocks
`[[A,B],[C,D]]`, `[[E,F],[G,H]]`, `[[I,J],[K,L]]`, `[[M,N],[O,P]]` — the
encoder reverses the column order of the odd-indexed row of each quadrant
before flattening row-major, so each datagram's payload (after the header and
the one-pixel black pad) lists the quadrant's pixels in the order
`A,B,D,C` (and likewise for the other three quadrants). -/
theorem c1_serpentine_quadrants (A B C D E F G H I J K L M N O P : Pixel) :
    (send_quadrant
        [[A, B, E, F], [C, D, G, H], [I, J, M, N], [K, L, O, P]]).map Prod.fst =
      .ok [[4, 5, 0, 0] ++ ([blackPixel, A, B, D, C].map pixelBytes).flatten,
           [4, 5, 0, 5] ++ ([blackPixel, E, F, H, G].map pixelBytes).flatten,
           [4, 5, 0, 10] ++ ([blackPixel, I, J, L, K].map pixelBytes).flatten,
           [4, 5, 0, 15] ++ ([blackPixel, M, N, P, O].map pixelBytes).flatten] := by
  with_unfolding_all rfl

/-- C2: for every square grid with even side `n` (and small enough that all
start indices fit the 16-bit header field), `send_quadrant` emits four
datagrams whose start indices are the exclusive cumulative sums of the prior
quadrants' LED counts — each quadrant contributing `(n/2)²` pixels plus one
leading pad LED — in the order top-left, top-right, bottom-left,
bottom-right, the first starting at 0. -/
theorem c2_start_indices (frame : Grid) (n : Nat)
    (hlen : frame.length = n) (hw : ∀ r ∈ frame, r.length = n)
    (hev : n % 2 = 0) (hcap : 3 * (n / 2 * (n / 2) + 1) ≤ 65535) :
    ∃ ds f2, send_quadrant frame = .ok (ds, f2) ∧
      ds.map dgStart =
        [0, n / 2 * (n / 2) + 1, 2 * (n / 2 * (n / 2) + 1),
         3 * (n / 2 * (n / 2) + 1)] := by
  by_cases hn : n = 0
  · subst hn
    have hf : frame = [] := List.eq_nil_of_length_eq_zero hlen
    subst hf
    exact ⟨[[4, 5, 0, 0, 0, 0, 0], [4, 5, 0, 1, 0, 0, 0],
            [4, 5, 0, 2, 0, 0, 0], [4, 5, 0, 3, 0, 0, 0]], [],
           by rfl, by decide⟩
  · have hnpos : 0 < n := Nat.pos_of_ne_zero hn
    have hmle : n / 2 ≤ n := Nat.div_le_self n 2
    have hmpos : 0 < n / 2 := by omega
    obtain ⟨r0, rest, hfr⟩ : ∃ r0 rest, frame = r0 :: rest := by
      cases frame with
      | nil => exact absurd hlen (by simp; omega)
      | cons a b => exact ⟨a, b, rfl⟩
    have hsr : splitRows frame = .ok (frame.take (n / 2), frame.drop (n / 2)) := by
      unfold splitRows
      rw [hlen, if_pos hev]
    have hhead_top : (frame.take (n / 2)).head? = some r0 := by
      rw [hfr]
      cases hq : n / 2 with
      | zero => omega
      | succ k => simp
    have hr0len : r0.length = n := hw r0 (by rw [hfr]; exact List.mem_cons_self _ _)
    have hwid_top : gridWidth (frame.take (n / 2)) = n := by
      unfold gridWidth
      rw [hhead_top]
      simp [hr0len]
    have hsc1 : splitCols (frame.take (n / 2)) =
        .ok ((frame.take (n / 2)).map (List.take (n / 2)),
             (frame.take (n / 2)).map (List.drop (n / 2))) := by
      unfold splitCols
      rw [hwid_top, if_pos hev]
    have hlt : n / 2 < frame.length := by omega
    obtain ⟨rb, hrb⟩ : ∃ rb, (frame.drop (n / 2)).head? = some rb := by
      rw [List.head?_drop]
      exact ⟨frame[n / 2], List.getElem?_eq_getElem hlt⟩
    have hrbmem : rb ∈ frame := by
      apply List.drop_subset (n / 2)
      cases hd : frame.drop (n / 2) with
      | nil => rw [hd] at hrb; simp at hrb
      | cons x xs =>
        rw [hd] at hrb
        simp only [List.head?_cons, Option.some.injEq] at hrb
        rw [← hrb]
        exact List.mem_cons_self _ _
    have hrblen : rb.length = n := hw rb hrbmem
    have hwid_bot : gridWidth (frame.drop (n / 2)) = n := by
      unfold gridWidth
      rw [hrb]
      simp [hrblen]
    have hsc2 : splitCols (frame.drop (n / 2)) =
        .ok ((frame.drop (n / 2)).map (List.take (n / 2)),
             (frame.drop (n / 2)).map (List.drop (n / 2))) := by
      unfold splitCols
      rw [hwid_bot, if_pos hev]
    have htoplen : (frame.take (n / 2)).length = n / 2 := by
      rw [List.length_take, hlen]
      exact inf_eq_left.mpr hmle
    have hbotlen : (frame.drop (n / 2)).length = n / 2 := by
      rw [List.length_drop, hlen]
      omega
    have hwtop : ∀ r ∈ frame.take (n / 2), r.length = n :=
      fun r hr => hw r (List.take_subset _ _ hr)
    have hwbot : ∀ r ∈ frame.drop (n / 2), r.length = n :=
      fun r hr => hw r (List.drop_subset _ _ hr)
    have hP1 : (padLeading 1
        (serp ((frame.take (n / 2)).map (List.take (n / 2)))).flatten).length =
        n / 2 * (n / 2) + 1 :=
      padded_serp_length _ _ _ (by rw [List.length_map, htoplen])
        (rows_take_length _ n _ hwtop hmle)
    have hP2 : (padLeading 1
        (serp ((frame.take (n / 2)).map (List.drop (n / 2)))).flatten).length =
        n / 2 * (n / 2) + 1 :=
      padded_serp_length _ _ _ (by rw [List.length_map, htoplen])
        (fun r hr => by have := rows_drop_length _ n (n / 2) hwtop r hr; omega)
    have hP3 : (padLeading 1
        (serp ((frame.drop (n / 2)).map (List.take (n / 2)))).flatten).length =
        n / 2 * (n / 2) + 1 :=
      padded_serp_length _ _ _ (by rw [List.length_map, hbotlen])
        (rows_take_length _ n _ hwbot hmle)
    have hkey := send_quadrant_ok_eq frame _ _ _ _ _ _ hsr hsc1 hsc2
    rw [hP1, hP2, hP3] at hkey
    obtain ⟨ds, hds, hmap⟩ := sendAll_ok
      [(padLeading 1 (serp ((frame.take (n / 2)).map (List.take (n / 2)))).flatten, 0),
       (padLeading 1 (serp ((frame.take (n / 2)).map (List.drop (n / 2)))).flatten,
         0 + (n / 2 * (n / 2) + 1)),
       (padLeading 1 (serp ((frame.drop (n / 2)).map (List.take (n / 2)))).flatten,
         0 + (n / 2 * (n / 2) + 1) + (n / 2 * (n / 2) + 1)),
       (padLeading 1 (serp ((frame.drop (n / 2)).map (List.drop (n / 2)))).flatten,
         0 + (n / 2 * (n / 2) + 1) + (n / 2 * (n / 2) + 1) + (n / 2 * (n / 2) + 1))]
      (by
        intro qp hqp
        simp only [List.mem_cons, List.not_mem_nil, or_false] at hqp
        rcases hqp with h | h | h | h <;> rw [h] <;> omega)
    rw [hds] at hkey
    refine ⟨ds, _, hkey, ?_⟩
    rw [hmap]
    simp only [List.map_cons, List.map_nil, List.cons.injEq]
    exact ⟨trivial, by omega, by omega, by omega, trivial⟩

/-- Witness for C2: the all-black 4×4 grid with leading-pad 1 per quadrant —
each quadrant holds 1 + 4 = 5 LEDs and the start indices are 0, 5, 10, 15. -/
theorem c2_start_indices_witness :
    ∃ ds f2,
      send_quadrant (List.replicate 4 (List.replicate 4 blackPixel)) =
        .ok (ds, f2) ∧
      ds.map dgStart = [0, 5, 10, 15] := by
  have h := c2_start_indices (List.replicate 4 (List.replicate 4 blackPixel)) 4
    (by decide) (by decide) (by decide) (by decide)
  simpa using h

/-- C9 counterexample: the 2×4 grid (non-square, both dimensions even) is NOT
rejected — `send_quadrant` produces its four datagrams without raising. -/
theorem c9_counterexample_nonsquare_accepted :
    (send_quadrant
        [[(1, 1, 1), (2, 2, 2), (3, 3, 3), (4, 4, 4)],
         [(5, 5, 5), (6, 6, 6), (7, 7, 7), (8, 8, 8)]]).isOk = true ∧
    ([[(1, 1, 1), (2, 2, 2), (3, 3, 3), (4, 4, 4)],
      [(5, 5, 5), (6, 6, 6), (7, 7, 7), (8, 8, 8)]] : Grid).length ≠
      gridWidth
        [[(1, 1, 1), (2, 2, 2), (3, 3, 3), (4, 4, 4)],
         [(5, 5, 5), (6, 6, 6), (7, 7, 7), (8, 8, 8)]] := by
  exact ⟨by rfl, by decide⟩

/-- C9 amended: the encoder fails fast (raises `ValueError` from `np.split`)
exactly on the divisibility contract — whenever the row count is odd, or the
row count is even and nonzero but the width is odd; squareness itself is not
checked by the encoder (it is enforced upstream by the excluded cropping
step). -/
theorem c9_odd_dims_fail_fast (frame : Grid)
    (h : frame.length % 2 = 1 ∨
         (frame.length % 2 = 0 ∧ frame.length ≠ 0 ∧ gridWidth frame % 2 = 1)) :
    ∃ e, send_quadrant frame = .error e := by
  rcases h with h | ⟨he, hne, hw⟩
  · refine ⟨"ValueError: array split does not result in an equal division", ?_⟩
    unfold send_quadrant splitRows
    rw [if_neg (by omega)]
  · refine ⟨"ValueError: array split does not result in an equal division", ?_⟩
    have hsr : splitRows frame =
        .ok (frame.take (frame.length / 2), frame.drop (frame.length / 2)) := by
      unfold splitRows
      rw [if_pos he]
    have hhead : (frame.take (frame.length / 2)).head? = frame.head? := by
      cases frame with
      | nil => simp at hne
      | cons r rest =>
        have : (r :: rest).length / 2 ≠ 0 := by
          simp only [List.length_cons] at he ⊢
          omega
        cases hq : (r :: rest).length / 2 with
        | zero => exact absurd hq this
        | succ k => simp [List.take]
    have hwid : gridWidth (frame.take (frame.length / 2)) = gridWidth frame := by
      unfold gridWidth
      rw [hhead]
    unfold send_quadrant
    rw [hsr]
    dsimp only
    unfold splitCols
    rw [hwid, if_neg (by omega)]

/-- Witness for C9 amended: a single-row (odd row count) grid is rejected. -/
theorem c9_odd_dims_fail_fast_witness :
    ∃ e, send_quadrant [[blackPixel, blackPixel]] = .error e :=
  c9_odd_dims_fail_fast [[blackPixel, blackPixel]] (by decide)

/-- C10 counterexample: on a concrete 4×4 grid the encoder emits its
datagrams but does not leave the input grid unchanged — the serpentine
assignment `q[1::2, :] = q[1::2, ::-1]` writes through the numpy views into
the caller's frame, reversing each quadrant's odd rows in place. -/
theorem c10_counterexample_frame_mutated :
    (send_quadrant
        [[(1, 1, 1), (2, 2, 2), (3, 3, 3), (4, 4, 4)],
         [(5, 5, 5), (6, 6, 6), (7, 7, 7), (8, 8, 8)],
         [(9, 9, 9), (10, 10, 10), (11, 11, 11), (12, 12, 12)],
         [(13, 13, 13), (14, 14, 14), (15, 15, 15), (16, 16, 16)]]).map Prod.snd =
      .ok [[(1, 1, 1), (2, 2, 2), (3, 3, 3), (4, 4, 4)],
           [(6, 6, 6), (5, 5, 5), (8, 8, 8), (7, 7, 7)],
           [(9, 9, 9), (10, 10, 10), (11, 11, 11), (12, 12, 12)],
           [(14, 14, 14), (13, 13, 13), (16, 16, 16), (15, 15, 15)]] ∧
    ([[(6, 6, 6), (5, 5, 5), (8, 8, 8), (7, 7, 7)]] : Grid) ≠
      [[(5, 5, 5), (6, 6, 6), (7, 7, 7), (8, 8, 8)]] := by
  exact ⟨by rfl, by decide⟩

set_option maxHeartbeats 2000000 in
/-- C10 amended: the encoder keeps no persistent state — both the emitted
datagrams and the frame it leaves behind are functions of the input grid
alone — but it does not leave the input grid unchanged: on every 4×4 grid the
frame after the call has each quadrant's odd row reversed in place (rows 1
and 3 have their left and right halves each reversed), while even rows are
untouched. -/
theorem c10_encoder_mutates_input (A B C D E F G H I J K L M N O P : Pixel) :
    (send_quadrant
        [[A, B, E, F], [C, D, G, H], [I, J, M, N], [K, L, O, P]]).map Prod.snd =
      .ok [[A, B, E, F], [D, C, H, G], [I, J, M, N], [L, K, P, O]] := by
  with_unfolding_all rfl

end Lights
